import Mathlib

/-!
Shallow embedding of `src/main.py`, a capnp wrapper generator: a `Parser`
that resolves a capnp schema's reflection data into a flat name-to-definition
mapping, and a `Generator` that emits C++ wrapper source text from that
mapping.  Python dicts are embedded as insertion-ordered association lists
with overwrite-on-reassign semantics; Python exceptions (KeyError on an id
lookup, IndexError from indexing an empty string, a capnp load failure)
become an `Except` error type.
-/

namespace CapnpWrapperGen

/-- Errors the Python program can raise: a `capnp.load` failure, a `KeyError`
from `self.struct_ids[...]` / `self.enum_ids[...]` (carrying the missing id),
and an `IndexError` from `s[0]` on an empty string in `cap`/`low`. -/
inductive PError where
  | loadError
  | lookupError (id : Nat)
  | indexError
  deriving DecidableEq, Repr

/-- Element type of a list-typed field, as seen through
`list_.proto.slot.type.list.elementType`: either a struct (carrying its type
id) or any other variant, carried as its `_which_str()` kind tag (such as
`"int32"`, `"enum"`, `"text"`). -/
inductive ElemKind where
  | structE (typeId : Nat)
  | kindE (which : String)
  deriving DecidableEq, Repr

/-- A field's declared type, as seen through `field.proto.slot.type.which()`:
the branches the code treats specially (`struct`, `enum`, `list`) carry their
payload; every other variant is carried as its `which()` kind-tag string. -/
inductive DeclKind where
  | structK (typeId : Nat)
  | enumK (typeId : Nat)
  | listK (elem : ElemKind)
  | primK (which : String)
  deriving DecidableEq, Repr

/-- A top-level module of the loaded schema: a `_StructModule` (with its id
and ordered field list) or an `_EnumModule` (with its id and ordered
enumerant name list), as iterated by `schema.__dict__.items()`. -/
inductive Module where
  | structMod (typeId : Nat) (fields : List (String × DeclKind))
  | enumMod (typeId : Nat) (enumerants : List String)
  deriving DecidableEq, Repr

/-- A loaded schema: the top-level `(name, module)` entries in iteration
(declaration) order. -/
abbrev Schema := List (String × Module)

/-- A value of `self.nodes`: either a resolved struct (field name → field
type string, insertion-ordered) or a resolved enum (its generated enumerant
names). Mirrors the Python union `dict | list`. -/
inductive NodeContent where
  | record (fields : List (String × String))
  | enum (values : List String)
  deriving DecidableEq, Repr

/-- The resolved mapping `self.nodes` returned by `Parser.parse`. -/
abbrev Nodes := List (String × NodeContent)

/-- Python dict assignment `d[k] = v`: overwrite in place if the key exists,
else append (preserving insertion order). -/
def dinsert {β : Type} (l : List (Nat × β)) (k : Nat) (v : β) : List (Nat × β) :=
  if l.any (fun p => p.1 = k) then
    l.map (fun p => if p.1 = k then (k, v) else p)
  else l ++ [(k, v)]

/-- Python dict assignment for string keys. -/
def sinsert {β : Type} (l : List (String × β)) (k : String) (v : β) : List (String × β) :=
  if l.any (fun p => p.1 = k) then
    l.map (fun p => if p.1 = k then (k, v) else p)
  else l ++ [(k, v)]

/-- `def cap(s): return s[0].upper() + s[1:]` — raises IndexError on "". -/
def cap (s : String) : Except PError String :=
  match s.data with
  | [] => .error .indexError
  | c :: rest => .ok (String.mk (c.toUpper :: rest))

/-- `def low(s): return s[0].lower() + s[1:]` — raises IndexError on "". -/
def low (s : String) : Except PError String :=
  match s.data with
  | [] => .error .indexError
  | c :: rest => .ok (String.mk (c.toLower :: rest))

namespace Parser

/-- `Parser.get_list_type`: a struct element type is replaced by its resolved
name via `self.struct_ids[...]` (KeyError → lookup error if absent); any
other element type stays as its `_which_str()` tag. -/
def get_list_type (struct_ids : List (Nat × String)) : ElemKind → Except PError String
  | .structE id =>
    match struct_ids.lookup id with
    | some n => .ok n
    | none => .error (.lookupError id)
  | .kindE w => .ok w

/-- The per-field type computation in `Parser.parse_struct`:
`type_ = field.proto.slot.type.which()`, then replaced through
`self.struct_ids` / `self.enum_ids` / `get_list_type` for the `struct`,
`enum` and `list` branches. -/
def resolveFieldType (struct_ids enum_ids : List (Nat × String)) :
    DeclKind → Except PError String
  | .structK id =>
    match struct_ids.lookup id with
    | some n => .ok n
    | none => .error (.lookupError id)
  | .enumK id =>
    match enum_ids.lookup id with
    | some n => .ok n
    | none => .error (.lookupError id)
  | .listK e => do
    let t ← get_list_type struct_ids e
    pure ("List(" ++ t ++ ")")
  | .primK w => .ok w

/-- The loop of `Parser.parse_struct`, with `res` as accumulator: for each
field the type is computed first, then `res[cap(name)] = type_`. -/
def parse_struct_go (struct_ids enum_ids : List (Nat × String))
    (res : List (String × String)) :
    List (String × DeclKind) → Except PError (List (String × String))
  | [] => .ok res
  | (name, d) :: rest => do
    let type_ ← resolveFieldType struct_ids enum_ids d
    let cname ← cap name
    parse_struct_go struct_ids enum_ids (sinsert res cname type_) rest

/-- `Parser.parse_struct`: field name (capitalized) → resolved field type. -/
def parse_struct (struct_ids enum_ids : List (Nat × String))
    (fields : List (String × DeclKind)) : Except PError (List (String × String)) :=
  parse_struct_go struct_ids enum_ids [] fields

/-- The enum branch of `Parser.parse`:
`[cap(enumerant) for enumerant in module.schema.enumerants.keys()][1:]` —
capitalize every declared enumerant, then drop the first. -/
def resolveEnumerants (enumerants : List String) : Except PError (List String) := do
  let capped ← enumerants.mapM cap
  pure (capped.drop 1)

/-- The mutable state of a `Parser` instance. -/
structure State where
  struct_ids : List (Nat × String)
  enum_ids : List (Nat × String)
  nodes : Nodes
  deriving Repr

/-- One iteration of the loop in `Parser.parse`: a struct module registers
its id → name mapping first, then resolves its fields; an enum module
registers its id → name mapping, then resolves its enumerant list. -/
def parseStep (st : State) : String × Module → Except PError State
  | (name, .structMod id fields) =>
    let sids := dinsert st.struct_ids id name
    match parse_struct sids st.enum_ids fields with
    | .ok fs => .ok { st with struct_ids := sids, nodes := sinsert st.nodes name (.record fs) }
    | .error e => .error e
  | (name, .enumMod id enumerants) =>
    let eids := dinsert st.enum_ids id name
    match resolveEnumerants enumerants with
    | .ok vs => .ok { st with enum_ids := eids, nodes := sinsert st.nodes name (.enum vs) }
    | .error e => .error e

/-- The loop of `Parser.parse` over the schema's top-level modules. -/
def parseAll (st : State) : Schema → Except PError State
  | [] => .ok st
  | m :: rest => do
    let st' ← parseStep st m
    parseAll st' rest

/-- `Parser.parse` on an already-loaded schema (starting from a fresh
`Parser.__init__` state), returning `self.nodes`. -/
def parse (schema : Schema) : Except PError Nodes :=
  (parseAll ⟨[], [], []⟩ schema).map State.nodes

end Parser

/-- `CAPNP_BASIC_TYPES`: capnp primitive kind → host (C++) type name. -/
def CAPNP_BASIC_TYPES : List (String × String) :=
  [("void", "void"),
   ("bool", "bool"),
   ("int8", "int8_t"),
   ("int16", "int16_t"),
   ("int32", "int32_t"),
   ("int64", "int64_t"),
   ("uint8", "uint8_t"),
   ("uint16", "uint16_t"),
   ("uint32", "uint32_t"),
   ("uint64", "uint64_t"),
   ("float32", "float"),
   ("float64", "double"),
   ("text", "std::string"),
   ("data", "std::string")]

/-- `BASE_NAMESPACE = 'NKikimrCapnProto_'`. -/
def BASE_NAMESPACE : String := "NKikimrCapnProto_"

namespace Generator

/-- `Generator.is_enum`: the node is a key of `self.nodes` bound to a list. -/
def is_enum (nodes : Nodes) (node : String) : Bool :=
  match nodes.lookup node with
  | some (.enum _) => true
  | _ => false

/-- `Generator.is_struct`: the node is a key of `self.nodes` bound to a dict. -/
def is_struct (nodes : Nodes) (node : String) : Bool :=
  match nodes.lookup node with
  | some (.record _) => true
  | _ => false

/-- `Generator.is_basic_type`: membership in `CAPNP_BASIC_TYPES`. -/
def is_basic_type (node : String) : Bool :=
  (CAPNP_BASIC_TYPES.lookup node).isSome

/-- `self.enum_names` computed in `Generator.__init__`. -/
def enum_names (nodes : Nodes) : List String :=
  (nodes.filter fun p => match p.2 with | .enum _ => true | _ => false).map Prod.fst

/-- `self.struct_names` computed in `Generator.__init__`. -/
def struct_names (nodes : Nodes) : List String :=
  (nodes.filter fun p => match p.2 with | .record _ => true | _ => false).map Prod.fst

/-- `self.nodes[struct_name].items()` for a struct name.  In every call the
program makes, `struct_name` is a key of `self.nodes` bound to a dict, so the
`[]` fallback is unreachable there. -/
def nodeFields (nodes : Nodes) (struct_name : String) : List (String × String) :=
  match nodes.lookup struct_name with
  | some (.record fs) => fs
  | _ => []

/-- `Generator.generate_reader_constructors`. -/
def generate_reader_constructors (name : String) : List String :=
  ["Reader(" ++ BASE_NAMESPACE ++ "::" ++ name ++ "::Reader r) : " ++
     BASE_NAMESPACE ++ "::" ++ name ++ "::Reader(r) \x7b\x7d",
   "Reader() = default;"]

/-- `Generator.generate_builder_constructors`. -/
def generate_builder_constructors (name : String) : List String :=
  ["Builder(" ++ BASE_NAMESPACE ++ "::" ++ name ++ "::Builder b) : " ++
     BASE_NAMESPACE ++ "::" ++ name ++ "::Builder(b), Reader(b.asReader()) \x7b\x7d"]

/-- `Generator.generate_builder_operators`. -/
def generate_builder_operators : List String :=
  ["Builder* operator->() \x7b return this; \x7d",
   "Builder& operator*() \x7b return *this; \x7d"]

/-- `Generator.generate_capnp_base_reader_method`. -/
def generate_capnp_base_reader_method (name : String) : String :=
  "const " ++ BASE_NAMESPACE ++ "::" ++ name ++
    "::Reader& GetCapnpBase() const \x7b return *this; \x7d"

/-- `Generator.generate_capnp_base_builder_method`. -/
def generate_capnp_base_builder_method (name : String) : String :=
  "const " ++ BASE_NAMESPACE ++ "::" ++ name ++
    "::Builder& GetCapnpBase() const \x7b return *this; \x7d"

/-- `Generator.generate_using_builder_methods`. -/
def generate_using_builder_methods (nodes : Nodes) (name : String)
    (fields : List (String × String)) : String :=
  let sep := "\n" ++ "        "
  let usings := (fields.filter fun p => is_struct nodes p.2).map fun p =>
    "using " ++ BASE_NAMESPACE ++ "::" ++ name ++ "::Builder::get" ++ p.1 ++ ";"
  String.intercalate sep usings

/-- `Generator.generate_has_methods`: one `Has` line per struct-typed field,
then per enum-typed field (compared against the base enum's `NOT_SET`
member), then per basic-typed field (compared against `0`). -/
def generate_has_methods (nodes : Nodes) (struct_name : String) : List String :=
  let fs := nodeFields nodes struct_name
  let struct := (fs.filter fun p => is_struct nodes p.2).map fun p =>
    "bool Has" ++ p.1 ++ "() const \x7b return has" ++ p.1 ++ "(); \x7d"
  let enum := (fs.filter fun p => is_enum nodes p.2).map fun p =>
    "bool Has" ++ p.1 ++ "() const \x7b return get" ++ p.1 ++ "() != " ++
      BASE_NAMESPACE ++ "::" ++ p.2 ++ "::NOT_SET; \x7d"
  let basic := (fs.filter fun p => is_basic_type p.2).map fun p =>
    "bool Has" ++ p.1 ++ "() const \x7b return get" ++ p.1 ++ "() != 0; \x7d"
  struct ++ enum ++ basic

/-- `Generator.generate_get_methods`: basic fields (typed with the mapped
host type), then struct fields (typed `T::Reader`), then enum fields (cast
through `size_t` with the sentinel offset subtracted). -/
def generate_get_methods (nodes : Nodes) (struct_name : String) : List String :=
  let fields := nodeFields nodes struct_name
  let basic := (fields.filter fun p => is_basic_type p.2).map fun p =>
    (CAPNP_BASIC_TYPES.lookup p.2).getD "" ++ " Get" ++ p.1 ++
      "() const \x7b return get" ++ p.1 ++ "(); \x7d"
  let struct := (fields.filter fun p => is_struct nodes p.2).map fun p =>
    p.2 ++ "::Reader Get" ++ p.1 ++ "() const \x7b return get" ++ p.1 ++ "(); \x7d"
  let enum := (fields.filter fun p => is_enum nodes p.2).map fun p =>
    p.2 ++ " Get" ++ p.1 ++ "() const \x7b return static_cast<" ++ p.2 ++
      ">(static_cast<size_t>(get" ++ p.1 ++ "()) - 1); \x7d"
  basic ++ struct ++ enum

/-- `Generator.generate_set_methods`: basic fields (set directly), then
struct fields (forwarding the value's capnp base), then enum fields (cast
through `size_t` with the sentinel offset added back). -/
def generate_set_methods (nodes : Nodes) (struct_name : String) : List String :=
  let fields := nodeFields nodes struct_name
  let basic := (fields.filter fun p => is_basic_type p.2).map fun p =>
    "void Set" ++ p.1 ++ "(const " ++ (CAPNP_BASIC_TYPES.lookup p.2).getD "" ++
      "& value) \x7b return set" ++ p.1 ++ "(value); \x7d"
  let struct := (fields.filter fun p => is_struct nodes p.2).map fun p =>
    "void Set" ++ p.1 ++ "(const " ++ p.2 ++ "::Reader& value) \x7b return set" ++
      p.1 ++ "(value.GetCapnpBase()); \x7d"
  let enum := (fields.filter fun p => is_enum nodes p.2).map fun p =>
    "void Set" ++ p.1 ++ "(const " ++ p.2 ++ "& value) \x7b return set" ++ p.1 ++
      "(static_cast<" ++ BASE_NAMESPACE ++ "::" ++ p.2 ++
      ">(static_cast<size_t>(value) + 1)); \x7d"
  basic ++ struct ++ enum

/-- `Generator.generate_mutable_methods`. -/
def generate_mutable_methods (nodes : Nodes) (struct_name : String) : List String :=
  (nodeFields nodes struct_name |>.filter fun p => is_struct nodes p.2).map fun p =>
    p.2 ++ "::Builder Mutable" ++ p.1 ++ "() \x7b return get" ++ p.1 ++ "(); \x7d"

/-- `Generator.generate_reader`. -/
def generate_reader (nodes : Nodes) (name : String) : String :=
  let sep := "\n" ++ "        "
  let methods := generate_reader_constructors name ++
    generate_get_methods nodes name ++
    generate_has_methods nodes name ++
    [generate_capnp_base_reader_method name]
  String.intercalate sep methods

/-- `Generator.generate_builder`. -/
def generate_builder (nodes : Nodes) (name : String) : String :=
  let sep := "\n" ++ "        "
  let methods := generate_builder_constructors name ++
    generate_builder_operators ++
    generate_set_methods nodes name ++
    generate_mutable_methods nodes name ++
    [generate_capnp_base_builder_method name]
  String.intercalate sep methods

/-- `Generator.generate_struct`: the reader/builder aggregate block, byte for
byte as the Python f-string assembles it (including the 4-space line between
the nested types and the trailing 12 spaces). -/
def generate_struct (nodes : Nodes) (name : String)
    (fields : List (String × String)) : String :=
  "\nstruct " ++ name ++ " \x7b\n    struct Reader : private " ++ BASE_NAMESPACE ++
    "::" ++ name ++ "::Reader \x7b\n    public:\n        " ++
    generate_reader nodes name ++
    "\n    \x7d;\n    \n    struct Builder : private " ++ BASE_NAMESPACE ++ "::" ++
    name ++ "::Builder, public Reader \x7b\n    private:\n        " ++
    generate_using_builder_methods nodes name fields ++
    "\n    public:\n        " ++
    generate_builder nodes name ++
    "\n    \x7d;\n\x7d;\n            "

/-- `Generator.generate_enum`: the enumeration block, byte for byte as the
Python f-string assembles it (members joined by `',\n' + 4 * ' '`, a comma
after the joined list, and the trailing 12 spaces). -/
def generate_enum (name : String) (enumerants : List String) : String :=
  let sep := ",\n" ++ "    "
  "\nenum class " ++ name ++ " \x7b\n    " ++
    String.intercalate sep enumerants ++ ",\n\x7d;\n            "

/-- `Generator.generate`: fold over the argument mapping, appending an enum
block for each list-valued entry and a struct block for each dict-valued
entry.  `selfNodes` is the `self.nodes` captured at construction, consulted
by the per-struct helpers; `main` passes the same mapping for both. -/
def generate (selfNodes nodes : Nodes) : String :=
  nodes.foldl (fun res p =>
    res ++ match p.2 with
      | .enum content => generate_enum p.1 content
      | .record content => generate_struct selfNodes p.1 content) ""

end Generator

/-- `main`, with the outcome of `capnp.load` abstracted as an `Except`
input: on a load failure nothing further runs; otherwise the schema is
parsed, the same resolved mapping seeds the `Generator` and is generated
from, and `print` appends a final newline.  An error at any stage yields no
output text at all. -/
def runProgram (loaded : Except PError Schema) : Except PError String := do
  let schema ← loaded
  let nodes ← Parser.parse schema
  pure (Generator.generate nodes nodes ++ "\n")

/-! ## Semantics of the emitted accessor bodies

The generator emits C++ text; the following definitions give the meaning of
the emitted method bodies so that the spec's behavioural properties can be
stated.  Host-language details that are not part of `src/main.py` (the raw
value of the base enumeration's sentinel member, the value domains of the
mapped host types, the meaning of comparing such a value with the literal 0)
are modelled from the spec, as noted on each definition. -/

/-- The modulus of `size_t` arithmetic in the emitted casts (64-bit host). -/
def SIZE_T_MOD : Nat := 2 ^ 64

/-- Semantics of the emitted enum `Set` body
`set X(static_cast<BASE::T>(static_cast<size_t>(value) + 1))`
(the `enum_template` of `generate_set_methods`): the raw value stored is the
public value plus one, in `size_t` arithmetic.  Modelled from the spec in
that the casts preserve in-range values, per the upstream contract. -/
def enumSetRaw (v : Nat) : Nat := (v + 1) % SIZE_T_MOD

/-- Semantics of the emitted enum `Get` body
`static_cast<T>(static_cast<size_t>(get X()) - 1)`
(the `enum_template` of `generate_get_methods`): the value returned is the
raw stored value minus one, in `size_t` arithmetic (unsigned wrap-around). -/
def enumGetRaw (raw : Nat) : Nat := (raw + (SIZE_T_MOD - 1)) % SIZE_T_MOD

/-- Modelled from the spec: the raw value of the base enumeration's reserved
sentinel member (named `NOT_SET` in the emitted comparison) — the dropped
first enumerant — is 0.  The schema compiler's generated C++ enum is outside
`src/`. -/
def NOT_SET_RAW : Nat := 0

/-- Semantics of the emitted enum `Has` body
`get X() != BASE::T::NOT_SET` (from `generate_has_methods`): true iff the raw
stored value differs from the sentinel's raw value. -/
def enumHas (raw : Nat) : Bool := raw != NOT_SET_RAW

/-- Modelled from the spec: value domains of the host types that
`CAPNP_BASIC_TYPES` maps the primitive kinds to.  Integer kinds carry an
integer, `bool` a boolean, the float kinds an exact numeric stand-in,
`text`/`data` a string, `void` the unit value; the schema compiler's
accessors and the host language are outside `src/`. -/
inductive PrimVal where
  | vVoid
  | vBool (b : Bool)
  | vInt (v : Int)
  | vFloat (q : Rat)
  | vStr (s : String)
  deriving DecidableEq, Repr

/-- The primitive kinds whose mapped host type is an integer type. -/
def intKinds : List String :=
  ["int8", "int16", "int32", "int64", "uint8", "uint16", "uint32", "uint64"]

/-- The primitive kinds whose mapped host type is a floating-point type. -/
def floatKinds : List String := ["float32", "float64"]

/-- Which `PrimVal` constructor carries values of a given primitive kind. -/
def kindCarrier (k : String) : PrimVal → Bool
  | .vVoid => k == "void"
  | .vBool _ => k == "bool"
  | .vInt _ => intKinds.contains k
  | .vFloat _ => floatKinds.contains k
  | .vStr _ => k == "text" || k == "data"

/-- The zero value of each primitive kind: numeric zero, `false`, the empty
string, or (for `void`) the unit value. -/
def primZero (k : String) : PrimVal :=
  if k == "void" then .vVoid
  else if k == "bool" then .vBool false
  else if intKinds.contains k then .vInt 0
  else if floatKinds.contains k then .vFloat 0
  else .vStr ""

/-- Semantics of the emitted primitive `Has` body `get X() != 0` (from
`generate_has_methods`).  Modelled from the spec for the non-numeric kinds:
per the spec the comparison against the literal 0 tests the kind's zero
value, so a string compares against the empty string and a `void` value —
being the kind's only value — always compares equal to its zero. -/
def primNeZero : PrimVal → Bool
  | .vVoid => false
  | .vBool b => b
  | .vInt v => v != 0
  | .vFloat q => q != 0
  | .vStr s => s != ""

/-- All field names and enumerant names of a schema are non-empty (so `cap`
never indexes an empty string while parsing it). -/
def namesNonEmpty (schema : Schema) : Bool :=
  schema.all fun p =>
    match p.2 with
    | .structMod _ fields => fields.all (fun f => f.1 != "")
    | .enumMod _ enumerants => enumerants.all (fun e => e != "")

/-- The text block `Generator.generate` contributes for one resolved type:
an enumeration block for a list-valued entry, a reader/builder aggregate
block for a dict-valued entry. -/
def blockOf (selfNodes : Nodes) (p : String × NodeContent) : String :=
  match p.2 with
  | .enum content => Generator.generate_enum p.1 content
  | .record content => Generator.generate_struct selfNodes p.1 content

/-- Concatenation of the per-type blocks, in mapping order. -/
def concatBlocks (selfNodes : Nodes) : Nodes → String
  | [] => ""
  | p :: rest => blockOf selfNodes p ++ concatBlocks selfNodes rest

/-! ## Helper lemmas -/

/-- Unfolding of `List.mapM cap` on a cons cell over the `Except` monad. -/
theorem mapM_cap_cons (a : String) (l : List String) :
    (a :: l).mapM cap =
      match cap a with
      | .error e => .error e
      | .ok b =>
        match l.mapM cap with
        | .error e => .error e
        | .ok bs => .ok (b :: bs) := by
  rw [List.mapM_cons]
  cases h1 : cap a <;> cases h2 : l.mapM cap <;>
    simp [h1, h2, Bind.bind, Except.bind, Pure.pure, Except.pure]

/-- `cap` succeeds exactly on non-empty strings. -/
theorem cap_ok_of_ne_empty (s : String) (h : s ≠ "") : ∃ t, cap s = .ok t := by
  cases s with
  | mk data =>
    cases data with
    | nil => exact absurd rfl h
    | cons c rest => exact ⟨String.mk (c.toUpper :: rest), rfl⟩

/-- The only error `cap` raises is `indexError`, and only on `""`. -/
theorem cap_error (s : String) (e : PError) (h : cap s = .error e) :
    s = "" ∧ e = .indexError := by
  cases s with
  | mk data =>
    cases data with
    | nil => exact ⟨rfl, by simpa [cap] using h.symm⟩
    | cons c rest => simp [cap] at h

/-- A successful `mapM cap` is pointwise `cap`, length preserved. -/
theorem mapM_cap_ok (l r : List String) (h : l.mapM cap = .ok r) :
    r.length = l.length ∧
      ∀ i (h1 : i < l.length) (h2 : i < r.length),
        cap (l.get ⟨i, h1⟩) = .ok (r.get ⟨i, h2⟩) := by
  induction l generalizing r with
  | nil =>
    have : r = [] := by
      have h' : Except.ok ([] : List String) = Except.ok r := h
      cases h'; rfl
    subst this
    exact ⟨rfl, fun i h1 _ => absurd h1 (Nat.not_lt_zero i)⟩
  | cons a l ih =>
    rw [mapM_cap_cons] at h
    cases h1 : cap a with
    | error e => rw [h1] at h; exact absurd h (by simp)
    | ok b =>
      rw [h1] at h
      cases h2 : l.mapM cap with
      | error e => rw [h2] at h; exact absurd h (by simp)
      | ok bs =>
        rw [h2] at h
        have hr : r = b :: bs := by cases h; rfl
        subst hr
        obtain ⟨hlen, hget⟩ := ih bs h2
        refine ⟨by simp [hlen], ?_⟩
        intro i hi1 hi2
        cases i with
        | zero => simpa using h1
        | succ j =>
          exact hget j (Nat.lt_of_succ_lt_succ hi1) (Nat.lt_of_succ_lt_succ hi2)

/-- `mapM cap` is the identity on lists whose elements `cap` fixes. -/
theorem mapM_cap_id (l : List String) (h : ∀ x ∈ l, cap x = .ok x) :
    l.mapM cap = .ok l := by
  induction l with
  | nil => rfl
  | cons a l ih =>
    rw [mapM_cap_cons, h a (List.mem_cons_self a l), ih fun x hx => h x (List.mem_cons_of_mem a hx)]

/-- A list containing `""` makes `mapM cap` fail with `indexError`. -/
theorem mapM_cap_empty_mem (l : List String) (h : "" ∈ l) :
    l.mapM cap = .error .indexError := by
  induction l with
  | nil => simp at h
  | cons a l ih =>
    rw [mapM_cap_cons]
    by_cases ha : a = ""
    · subst ha; rfl
    · obtain ⟨t, ht⟩ := cap_ok_of_ne_empty a ha
      rw [ht, ih (by
        rcases List.mem_cons.mp h with h' | h'
        · exact absurd h'.symm ha
        · exact h')]

/-- `mapM cap` succeeds on lists of non-empty strings. -/
theorem mapM_cap_ok_of_ne_empty (l : List String) (h : ∀ x ∈ l, x ≠ "") :
    ∃ r, l.mapM cap = .ok r := by
  induction l with
  | nil => exact ⟨[], rfl⟩
  | cons a l ih =>
    obtain ⟨t, ht⟩ := cap_ok_of_ne_empty a (h a (List.mem_cons_self a l))
    obtain ⟨r, hr⟩ := ih fun x hx => h x (List.mem_cons_of_mem a hx)
    exact ⟨t :: r, by rw [mapM_cap_cons, ht, hr]⟩

/-- Field-type resolution only fails with a lookup error (a `KeyError` on one
of the id dictionaries), never an index error. -/
theorem resolveFieldType_error (sIds eIds : List (Nat × String)) (d : DeclKind)
    (e : PError) (h : Parser.resolveFieldType sIds eIds d = .error e) :
    ∃ id, e = .lookupError id := by
  cases d with
  | structK id =>
    cases hl : sIds.lookup id <;> simp [Parser.resolveFieldType, hl] at h <;>
      exact ⟨id, h.symm⟩
  | enumK id =>
    cases hl : eIds.lookup id <;> simp [Parser.resolveFieldType, hl] at h <;>
      exact ⟨id, h.symm⟩
  | listK el =>
    cases el with
    | structE id =>
      cases hl : sIds.lookup id <;>
        simp [Parser.resolveFieldType, Parser.get_list_type, hl, Bind.bind,
          Except.bind, Pure.pure, Except.pure] at h
      exact ⟨id, h.symm⟩
    | kindE w =>
      simp [Parser.resolveFieldType, Parser.get_list_type, Bind.bind,
        Except.bind, Pure.pure, Except.pure] at h
  | primK w => simp [Parser.resolveFieldType] at h

/-- A successfully resolved prefix of the field list can be skipped. -/
theorem parse_struct_go_append (sIds eIds : List (Nat × String)) :
    ∀ (pre : List (String × DeclKind)) (res res' : List (String × String)),
      Parser.parse_struct_go sIds eIds res pre = .ok res' →
      ∀ l, Parser.parse_struct_go sIds eIds res (pre ++ l) =
        Parser.parse_struct_go sIds eIds res' l := by
  intro pre
  induction pre with
  | nil =>
    intro res res' h l
    have : res = res' := by
      have h' : Except.ok res = Except.ok res' := h
      cases h'; rfl
    subst this; rfl
  | cons f pre ih =>
    intro res res' h l
    obtain ⟨name, d⟩ := f
    cases ht : Parser.resolveFieldType sIds eIds d with
    | error e =>
      simp [Parser.parse_struct_go, ht, Bind.bind, Except.bind] at h
    | ok t =>
      cases hc : cap name with
      | error e =>
        simp [Parser.parse_struct_go, ht, hc, Bind.bind, Except.bind] at h
      | ok cname =>
        have h' : Parser.parse_struct_go sIds eIds (sinsert res cname t) pre = .ok res' := by
          simpa [Parser.parse_struct_go, ht, hc, Bind.bind, Except.bind] using h
        have := ih (sinsert res cname t) res' h' l
        simpa [Parser.parse_struct_go, ht, hc, Bind.bind, Except.bind] using this

/-- With non-empty field names, a failing `parse_struct_go` never fails with
an index error. -/
theorem parse_struct_go_error_ne_index (sIds eIds : List (Nat × String)) :
    ∀ (fields : List (String × DeclKind)) (res : List (String × String)) (e : PError),
      (∀ f ∈ fields, f.1 ≠ "") →
      Parser.parse_struct_go sIds eIds res fields = .error e →
      e ≠ .indexError := by
  intro fields
  induction fields with
  | nil => intro res e _ h; simp [Parser.parse_struct_go] at h
  | cons f fields ih =>
    intro res e hne h
    obtain ⟨name, d⟩ := f
    cases ht : Parser.resolveFieldType sIds eIds d with
    | error e' =>
      have he : e' = e := by
        simpa [Parser.parse_struct_go, ht, Bind.bind, Except.bind] using h
      obtain ⟨id, hid⟩ := resolveFieldType_error sIds eIds d e' ht
      subst he; simp [hid]
    | ok t =>
      have hname : name ≠ "" := hne (name, d) (List.mem_cons_self _ _)
      obtain ⟨cname, hc⟩ := cap_ok_of_ne_empty name hname
      have h' : Parser.parse_struct_go sIds eIds (sinsert res cname t) fields = .error e := by
        simpa [Parser.parse_struct_go, ht, hc, Bind.bind, Except.bind] using h
      exact ih (sinsert res cname t) e (fun g hg => hne g (List.mem_cons_of_mem _ hg)) h'

/-- `resolveEnumerants` by cases on the underlying `mapM`. -/
theorem resolveEnumerants_eq (l : List String) :
    Parser.resolveEnumerants l =
      match l.mapM cap with
      | .error e => .error e
      | .ok r => .ok (r.drop 1) := by
  unfold Parser.resolveEnumerants
  cases h : l.mapM cap with
  | error e => rfl
  | ok r => rfl

/-- With non-empty enumerant names, `resolveEnumerants` never fails. -/
theorem resolveEnumerants_ok_of_ne_empty (l : List String) (h : ∀ x ∈ l, x ≠ "") :
    ∃ r, Parser.resolveEnumerants l = .ok r := by
  obtain ⟨r, hr⟩ := mapM_cap_ok_of_ne_empty l h
  exact ⟨r.drop 1, by rw [resolveEnumerants_eq, hr]⟩

/-- Boolean name check for one module, as `namesNonEmpty` tests it. -/
def moduleNamesOk (m : Module) : Bool :=
  match m with
  | .structMod _ fields => fields.all (fun f => f.1 != "")
  | .enumMod _ enumerants => enumerants.all (fun e => e != "")

/-- `namesNonEmpty` on a cons cell. -/
theorem namesNonEmpty_cons (m : String × Module) (rest : Schema) :
    namesNonEmpty (m :: rest) = (moduleNamesOk m.2 && namesNonEmpty rest) := by
  cases m with
  | mk name md => cases md <;> simp [namesNonEmpty, moduleNamesOk, List.all_cons]

/-- With non-empty names in a module, a failing `parseStep` never fails with
an index error. -/
theorem parseStep_error_ne_index (st : Parser.State) (m : String × Module)
    (e : PError) (hm : moduleNamesOk m.2 = true)
    (h : Parser.parseStep st m = .error e) : e ≠ .indexError := by
  obtain ⟨name, md⟩ := m
  cases md with
  | structMod id fields =>
    cases hs : Parser.parse_struct (dinsert st.struct_ids id name) st.enum_ids fields with
    | error e' =>
      have he : e' = e := by
        have := h
        simp only [Parser.parseStep] at this
        rw [hs] at this
        cases this; rfl
      subst he
      have hfe : ∀ f ∈ fields, f.1 ≠ "" := by
        intro f hf
        have hm' := hm
        simp only [moduleNamesOk, List.all_eq_true] at hm'
        have := hm' f hf
        simpa [bne_iff_ne] using this
      exact parse_struct_go_error_ne_index _ _ fields [] _ hfe hs
    | ok fs =>
      exfalso
      have := h
      simp only [Parser.parseStep] at this
      rw [hs] at this
      cases this
  | enumMod id enumerants =>
    exfalso
    have hee : ∀ x ∈ enumerants, x ≠ "" := by
      intro x hx
      have hm' := hm
      simp only [moduleNamesOk, List.all_eq_true] at hm'
      have := hm' x hx
      simpa [bne_iff_ne] using this
    obtain ⟨r, hr⟩ := resolveEnumerants_ok_of_ne_empty enumerants hee
    have := h
    simp only [Parser.parseStep] at this
    rw [hr] at this
    cases this

/-- With non-empty names throughout, a failing `parseAll` never fails with an
index error. -/
theorem parseAll_error_ne_index :
    ∀ (schema : Schema) (st : Parser.State) (e : PError),
      namesNonEmpty schema = true →
      Parser.parseAll st schema = .error e →
      e ≠ .indexError := by
  intro schema
  induction schema with
  | nil => intro st e _ h; simp [Parser.parseAll] at h
  | cons m rest ih =>
    intro st e hne h
    rw [namesNonEmpty_cons] at hne
    have hm : moduleNamesOk m.2 = true := (Bool.and_eq_true _ _ |>.mp hne).1
    have hrest : namesNonEmpty rest = true := (Bool.and_eq_true _ _ |>.mp hne).2
    cases hstep : Parser.parseStep st m with
    | error e' =>
      have he : e' = e := by
        have := h
        simp only [Parser.parseAll, Bind.bind, Except.bind] at this
        rw [hstep] at this
        cases this; rfl
      subst he
      exact parseStep_error_ne_index st m _ hm hstep
    | ok st' =>
      have h' : Parser.parseAll st' rest = .error e := by
        have := h
        simp only [Parser.parseAll, Bind.bind, Except.bind] at this
        rw [hstep] at this
        exact this
      exact ih st' e hrest h'

/-! ## Claim theorems -/

/-- Claim C2: for every enumeration-typed field and every valid post-offset
enum value `v` (excluding the reserved sentinel), the generated `Set` method
stores the raw value `index(v) + 1`, the generated `Get` method returns the
raw value minus one (so `Get` after `Set(v)` returns `v` unchanged), and the
emitted method bodies are exactly the `+ 1` / `- 1` cast templates. -/
theorem C2_enum_set_get_roundtrip (v : Nat) (nodes : Nodes) (sname fname ty : String) :
    (v + 1 < SIZE_T_MOD → enumSetRaw v = v + 1 ∧ enumGetRaw (enumSetRaw v) = v) ∧
    ((fname, ty) ∈ Generator.nodeFields nodes sname → Generator.is_enum nodes ty = true →
      ("void Set" ++ fname ++ "(const " ++ ty ++ "& value) \x7b return set" ++ fname ++
        "(static_cast<" ++ BASE_NAMESPACE ++ "::" ++ ty ++
        ">(static_cast<size_t>(value) + 1)); \x7d") ∈
          Generator.generate_set_methods nodes sname ∧
      (ty ++ " Get" ++ fname ++ "() const \x7b return static_cast<" ++ ty ++
        ">(static_cast<size_t>(get" ++ fname ++ "()) - 1); \x7d") ∈
          Generator.generate_get_methods nodes sname) := by
  constructor
  · intro h
    have hM : 0 < SIZE_T_MOD := pow_pos (by norm_num) 64
    have hv : v < SIZE_T_MOD := Nat.lt_of_succ_lt h
    have h1 : enumSetRaw v = v + 1 := Nat.mod_eq_of_lt h
    refine ⟨h1, ?_⟩
    rw [h1]
    unfold enumGetRaw
    have h2 : v + 1 + (SIZE_T_MOD - 1) = v + SIZE_T_MOD := by omega
    rw [h2, Nat.add_mod_right]
    exact Nat.mod_eq_of_lt hv
  · intro hmem hen
    constructor
    · simp only [Generator.generate_set_methods, List.mem_append]
      exact Or.inr (List.mem_map.mpr ⟨(fname, ty), List.mem_filter.mpr ⟨hmem, hen⟩, rfl⟩)
    · simp only [Generator.generate_get_methods, List.mem_append]
      exact Or.inr (List.mem_map.mpr ⟨(fname, ty), List.mem_filter.mpr ⟨hmem, hen⟩, rfl⟩)

/-- Witness for C2 at `v = 1` on a concrete resolved schema with one
enum-typed field. -/
theorem C2_enum_set_get_roundtrip_witness :
    (1 + 1 < SIZE_T_MOD ∧ enumSetRaw 1 = 2 ∧ enumGetRaw (enumSetRaw 1) = 1) ∧
    (("F", "E") ∈ Generator.nodeFields [("S", .record [("F", "E")]), ("E", .enum ["A"])] "S" ∧
      Generator.is_enum [("S", .record [("F", "E")]), ("E", .enum ["A"])] "E" = true ∧
      ("void Set" ++ "F" ++ "(const " ++ "E" ++ "& value) \x7b return set" ++ "F" ++
        "(static_cast<" ++ BASE_NAMESPACE ++ "::" ++ "E" ++
        ">(static_cast<size_t>(value) + 1)); \x7d") ∈
        Generator.generate_set_methods [("S", .record [("F", "E")]), ("E", .enum ["A"])] "S") := by
  have hlt : 1 + 1 < SIZE_T_MOD := by norm_num [SIZE_T_MOD]
  have hmem : ("F", "E") ∈ Generator.nodeFields
      [("S", .record [("F", "E")]), ("E", .enum ["A"])] "S" := by
    simp [Generator.nodeFields, List.lookup]
  have hen : Generator.is_enum [("S", .record [("F", "E")]), ("E", .enum ["A"])] "E" = true := by
    simp [Generator.is_enum, List.lookup]
  have h := C2_enum_set_get_roundtrip 1 [("S", .record [("F", "E")]), ("E", .enum ["A"])] "S" "F" "E"
  exact ⟨⟨hlt, (h.1 hlt).1, (h.1 hlt).2⟩, hmem, hen, (h.2 hmem hen).1⟩

/-- Claim C3: the generated `Has` method of an enumeration-typed field is
false exactly when the raw stored value equals the reserved sentinel (raw
value 0, the dropped first enumerant), true for every other raw value; the
emitted body compares the base accessor against the sentinel member. -/
theorem C3_enum_has_iff_not_sentinel (raw : Nat) (nodes : Nodes) (sname fname ty : String) :
    (enumHas raw = false ↔ raw = 0) ∧
    ((fname, ty) ∈ Generator.nodeFields nodes sname → Generator.is_enum nodes ty = true →
      ("bool Has" ++ fname ++ "() const \x7b return get" ++ fname ++ "() != " ++
        BASE_NAMESPACE ++ "::" ++ ty ++ "::NOT_SET; \x7d") ∈
        Generator.generate_has_methods nodes sname) := by
  constructor
  · simp [enumHas, NOT_SET_RAW]
  · intro hmem hen
    simp only [Generator.generate_has_methods, List.mem_append]
    exact Or.inl (Or.inr (List.mem_map.mpr ⟨(fname, ty), List.mem_filter.mpr ⟨hmem, hen⟩, rfl⟩))

/-- Witness for C3 at raw values 0 and 3 on a concrete resolved schema. -/
theorem C3_enum_has_iff_not_sentinel_witness :
    (enumHas 0 = false ↔ (0 : Nat) = 0) ∧
    (enumHas 3 = false ↔ (3 : Nat) = 0) ∧
    (("F", "E") ∈ Generator.nodeFields [("S", .record [("F", "E")]), ("E", .enum ["A"])] "S" ∧
      ("bool Has" ++ "F" ++ "() const \x7b return get" ++ "F" ++ "() != " ++
        BASE_NAMESPACE ++ "::" ++ "E" ++ "::NOT_SET; \x7d") ∈
        Generator.generate_has_methods [("S", .record [("F", "E")]), ("E", .enum ["A"])] "S") := by
  have hmem : ("F", "E") ∈ Generator.nodeFields
      [("S", .record [("F", "E")]), ("E", .enum ["A"])] "S" := by
    simp [Generator.nodeFields, List.lookup]
  have hen : Generator.is_enum [("S", .record [("F", "E")]), ("E", .enum ["A"])] "E" = true := by
    simp [Generator.is_enum, List.lookup]
  refine ⟨(C3_enum_has_iff_not_sentinel 0 [] "" "" "").1,
    (C3_enum_has_iff_not_sentinel 3 [] "" "" "").1, hmem,
    (C3_enum_has_iff_not_sentinel 3 [("S", .record [("F", "E")]), ("E", .enum ["A"])]
      "S" "F" "E").2 hmem hen⟩

/-- Claim C6: list-typed fields resolve exactly one level of element kind —
a record element renders as `List(<resolved record name>)`, any other element
kind is kept as-is, so an `int32` element renders as `List(int32)`. -/
theorem C6_list_resolves_one_level (sIds eIds : List (Nat × String)) (id : Nat) (n k : String) :
    (sIds.lookup id = some n →
      Parser.resolveFieldType sIds eIds (.listK (.structE id)) = .ok ("List(" ++ n ++ ")")) ∧
    Parser.resolveFieldType sIds eIds (.listK (.kindE k)) = .ok ("List(" ++ k ++ ")") := by
  constructor
  · intro h
    simp [Parser.resolveFieldType, Parser.get_list_type, h, Bind.bind, Except.bind,
      Pure.pure, Except.pure]
  · rfl

/-- Witness for C6: a registered record id 7 named `Rec` renders as
`List(Rec)`; a primitive `int32` element renders as `List(int32)`. -/
theorem C6_list_resolves_one_level_witness :
    ([(7, "Rec")] : List (Nat × String)).lookup 7 = some "Rec" ∧
    Parser.resolveFieldType [(7, "Rec")] [] (.listK (.structE 7)) = .ok "List(Rec)" ∧
    Parser.resolveFieldType [(7, "Rec")] [] (.listK (.kindE "int32")) = .ok "List(int32)" := by
  have h := C6_list_resolves_one_level [(7, "Rec")] [] 7 "Rec" "int32"
  refine ⟨rfl, ?_, ?_⟩
  · have e1 : ("List(" ++ "Rec" ++ ")" : String) = "List(Rec)" := by decide
    rw [h.1 rfl, e1]
  · have e2 : ("List(" ++ "int32" ++ ")" : String) = "List(int32)" := by decide
    rw [h.2, e2]

/-- Claim C8: generation is deterministic and idempotent — the output is a
pure function of the resolved mapping, so two generation runs over equal
resolved schemas produce byte-identical text. -/
theorem C8_generation_deterministic (n₁ n₂ : Nodes) (h : n₁ = n₂) :
    Generator.generate n₁ n₁ = Generator.generate n₂ n₂ := by
  rw [h]

/-- Witness for C8 on a concrete resolved schema. -/
theorem C8_generation_deterministic_witness :
    ([("E", NodeContent.enum ["A", "B"])] : Nodes) = [("E", NodeContent.enum ["A", "B"])] ∧
    Generator.generate [("E", NodeContent.enum ["A", "B"])] [("E", NodeContent.enum ["A", "B"])] =
      Generator.generate [("E", NodeContent.enum ["A", "B"])] [("E", NodeContent.enum ["A", "B"])] :=
  ⟨rfl, C8_generation_deterministic _ _ rfl⟩

/-- Claim C1: a resolved enumeration is the declared enumerant list with the
first entry dropped and the rest (capitalized as every name is) in
declaration order; the generated enumeration block contains exactly those
names in that order, so the name at index `i` has post-offset value `i`. -/
theorem C1_enum_first_dropped (enumerants vs : List String) (name : String)
    (h : Parser.resolveEnumerants enumerants = .ok vs) :
    vs.length = enumerants.length - 1 ∧
    (∀ i (h1 : i + 1 < enumerants.length) (h2 : i < vs.length),
      cap (enumerants.get ⟨i + 1, h1⟩) = .ok (vs.get ⟨i, h2⟩)) ∧
    ((∀ x ∈ enumerants, cap x = .ok x) → vs = enumerants.drop 1) ∧
    Generator.generate_enum name vs =
      "\nenum class " ++ name ++ " \x7b\n    " ++
        String.intercalate ",\n    " vs ++ ",\n\x7d;\n            " := by
  rw [resolveEnumerants_eq] at h
  cases hm : enumerants.mapM cap with
  | error e => rw [hm] at h; exact absurd h (by simp)
  | ok capped =>
    rw [hm] at h
    have hvs : vs = capped.drop 1 := by cases h; rfl
    obtain ⟨hlen, hget⟩ := mapM_cap_ok enumerants capped hm
    subst hvs
    refine ⟨by simp [hlen], ?_, ?_, ?_⟩
    · intro i h1 h2
      have hc2 : i + 1 < capped.length := by
        simp only [List.length_drop] at h2; omega
      have hcap := hget (i + 1) (by omega) hc2
      rw [hcap]
      congr 1
      rw [List.get_eq_getElem, List.get_eq_getElem, List.getElem_drop]
      simp [Nat.add_comm]
    · intro hid
      have hmid := mapM_cap_id enumerants hid
      rw [hm] at hmid
      have : capped = enumerants := by cases hmid; rfl
      rw [this]
    · simp only [Generator.generate_enum]
      rw [show (",\n" ++ "    " : String) = ",\n    " from by decide]

/-- Witness for C1 on the spec's example: declared `[X0, X1, X2]` resolves
to `[X1, X2]` (first entry dropped, order kept), and the generated block
joins exactly those names. -/
theorem C1_enum_first_dropped_witness :
    Parser.resolveEnumerants ["X0", "X1", "X2"] = .ok ["X1", "X2"] ∧
    (["X1", "X2"] : List String).length = (["X0", "X1", "X2"] : List String).length - 1 ∧
    (["X1", "X2"] : List String) = (["X0", "X1", "X2"] : List String).drop 1 ∧
    Generator.generate_enum "E" ["X1", "X2"] =
      "\nenum class " ++ "E" ++ " \x7b\n    " ++
        String.intercalate ",\n    " ["X1", "X2"] ++ ",\n\x7d;\n            " := by
  have hres : Parser.resolveEnumerants ["X0", "X1", "X2"] = .ok ["X1", "X2"] := rfl
  have h := C1_enum_first_dropped ["X0", "X1", "X2"] ["X1", "X2"] "E" hres
  refine ⟨hres, h.1, h.2.2.1 ?_, h.2.2.2⟩
  intro x hx
  fin_cases hx <;> rfl

/-- Claim C5: for every primitive kind in the fixed mapping table (including
`bool`, `text`, `data`, `void`), the generated `Has` is false exactly when
the stored value equals that kind's zero value, and the emitted body for
every basic-kind field is the `!= 0` comparison. -/
theorem C5_primitive_has_zero (p : String × String) (v : PrimVal) (nodes : Nodes)
    (sname fname : String) :
    (p ∈ CAPNP_BASIC_TYPES → kindCarrier p.1 v = true →
      (primNeZero v = false ↔ v = primZero p.1)) ∧
    ((fname, p.1) ∈ Generator.nodeFields nodes sname →
      Generator.is_basic_type p.1 = true →
      ("bool Has" ++ fname ++ "() const \x7b return get" ++ fname ++ "() != 0; \x7d") ∈
        Generator.generate_has_methods nodes sname) := by
  constructor
  · intro hp hc
    fin_cases hp <;> cases v <;>
      simp_all [kindCarrier, primNeZero, primZero, intKinds, floatKinds]
  · intro hmem hb
    simp only [Generator.generate_has_methods, List.mem_append]
    exact Or.inr (List.mem_map.mpr ⟨(fname, p.1), List.mem_filter.mpr ⟨hmem, hb⟩, rfl⟩)

/-- Witness for C5 at kind `int32`, value 5 (and the zero value), on a
concrete resolved schema with one `int32` field. -/
theorem C5_primitive_has_zero_witness :
    (("int32", "int32_t") ∈ CAPNP_BASIC_TYPES ∧
      kindCarrier "int32" (.vInt 5) = true ∧
      (primNeZero (.vInt 5) = false ↔ PrimVal.vInt 5 = primZero "int32") ∧
      (primNeZero (.vInt 0) = false ↔ PrimVal.vInt 0 = primZero "int32")) ∧
    (("F", "int32") ∈ Generator.nodeFields [("S", .record [("F", "int32")])] "S" ∧
      Generator.is_basic_type "int32" = true ∧
      ("bool Has" ++ "F" ++ "() const \x7b return get" ++ "F" ++ "() != 0; \x7d") ∈
        Generator.generate_has_methods [("S", .record [("F", "int32")])] "S") := by
  have hp : (("int32", "int32_t") : String × String) ∈ CAPNP_BASIC_TYPES := by
    simp [CAPNP_BASIC_TYPES]
  have hc : kindCarrier "int32" (.vInt 5) = true := by decide
  have hc0 : kindCarrier "int32" (.vInt 0) = true := by decide
  have hmem : ("F", "int32") ∈ Generator.nodeFields [("S", .record [("F", "int32")])] "S" := by
    simp [Generator.nodeFields, List.lookup]
  have hb : Generator.is_basic_type "int32" = true := by decide
  refine ⟨⟨hp, hc,
      (C5_primitive_has_zero ("int32", "int32_t") (.vInt 5) [] "" "").1 hp hc,
      (C5_primitive_has_zero ("int32", "int32_t") (.vInt 0) [] "" "").1 hp hc0⟩,
    hmem, hb,
    (C5_primitive_has_zero ("int32", "int32_t") (.vInt 5)
      [("S", .record [("F", "int32")])] "S" "F").2 hmem hb⟩

/-- Claim C7: the generator's output is exactly one block per resolved type
— an enumeration block for every list-valued entry, a reader/builder
aggregate block for every dict-valued entry — concatenated in mapping
order. -/
theorem C7_one_block_per_type (selfNodes nodes : Nodes) :
    Generator.generate selfNodes nodes = concatBlocks selfNodes nodes := by
  have aux : ∀ (ns : Nodes) (acc : String),
      ns.foldl (fun res p =>
        res ++ match p.2 with
          | .enum content => Generator.generate_enum p.1 content
          | .record content => Generator.generate_struct selfNodes p.1 content) acc =
        acc ++ concatBlocks selfNodes ns := by
    intro ns
    induction ns with
    | nil => intro acc; simp [concatBlocks, String.append_empty]
    | cons p rest ih =>
      intro acc
      obtain ⟨nm, c⟩ := p
      cases c with
      | enum content =>
        simp only [List.foldl_cons, ih, concatBlocks, blockOf]
        rw [String.append_assoc]
      | record content =>
        simp only [List.foldl_cons, ih, concatBlocks, blockOf]
        rw [String.append_assoc]
  unfold Generator.generate
  rw [aux, String.empty_append]

/-- Claim C10: the generated enumeration block always places a comma after
the joined member list; for an enumeration declaring only the reserved
sentinel, the resolved list is empty and the block still contains the lone
comma inside the braces, with no member names. -/
theorem C10_trailing_comma (name x0 : String) (es : List String) :
    (x0 ≠ "" → Parser.resolveEnumerants [x0] = .ok []) ∧
    Generator.generate_enum name es =
      "\nenum class " ++ name ++ " \x7b\n    " ++
        String.intercalate ",\n    " es ++ ",\n\x7d;\n            " ∧
    Generator.generate_enum name [] =
      "\nenum class " ++ name ++ " \x7b\n    " ++ ",\n\x7d;\n            " := by
  refine ⟨?_, ?_, ?_⟩
  · intro h
    obtain ⟨t, ht⟩ := cap_ok_of_ne_empty x0 h
    rw [resolveEnumerants_eq]
    rw [show ([x0].mapM cap) =
      (match cap x0 with
        | .error e => .error e
        | .ok b =>
          match ([] : List String).mapM cap with
          | .error e => .error e
          | .ok bs => .ok (b :: bs)) from mapM_cap_cons x0 []]
    rw [ht]
    rfl
  · simp only [Generator.generate_enum]
    rw [show (",\n" ++ "    " : String) = ",\n    " from by decide]
  · simp only [Generator.generate_enum]
    rw [show String.intercalate (",\n" ++ "    ") ([] : List String) = "" from rfl,
      String.append_empty]

/-- Witness for C10: a schema-declared enumeration `[x0]` (sentinel only)
resolves to the empty list and still generates the lone comma. -/
theorem C10_trailing_comma_witness :
    ("X0" : String) ≠ "" ∧
    Parser.resolveEnumerants ["X0"] = .ok [] ∧
    Generator.generate_enum "E" [] =
      "\nenum class " ++ "E" ++ " \x7b\n    " ++ ",\n\x7d;\n            " := by
  have h := C10_trailing_comma "E" "X0" []
  exact ⟨by decide, h.1 (by decide), h.2.2⟩

/-- Claim C4: a field (or list element) referencing a record/enum TypeId not
in the id index at resolution time makes resolution fail with a lookup
error, the failure propagates through `parse_struct`, and a failed parse
yields no generated output at all. -/
theorem C4_unresolved_ref_fails :
    (∀ (sIds eIds : List (Nat × String)) (id : Nat),
      sIds.lookup id = none →
        Parser.resolveFieldType sIds eIds (.structK id) = .error (.lookupError id)) ∧
    (∀ (sIds eIds : List (Nat × String)) (id : Nat),
      eIds.lookup id = none →
        Parser.resolveFieldType sIds eIds (.enumK id) = .error (.lookupError id)) ∧
    (∀ (sIds eIds : List (Nat × String)) (id : Nat),
      sIds.lookup id = none →
        Parser.resolveFieldType sIds eIds (.listK (.structE id)) = .error (.lookupError id)) ∧
    (∀ (sIds eIds : List (Nat × String)) (res res' : List (String × String))
        (pre : List (String × DeclKind)) (fname : String) (d : DeclKind) (id : Nat)
        (rest : List (String × DeclKind)),
      Parser.parse_struct_go sIds eIds res pre = .ok res' →
      Parser.resolveFieldType sIds eIds d = .error (.lookupError id) →
      Parser.parse_struct_go sIds eIds res (pre ++ (fname, d) :: rest) =
        .error (.lookupError id)) ∧
    (∀ (schema : Schema) (e : PError),
      Parser.parse schema = .error e → runProgram (.ok schema) = .error e) := by
  refine ⟨?_, ?_, ?_, ?_, ?_⟩
  · intro sIds eIds id h
    simp [Parser.resolveFieldType, h]
  · intro sIds eIds id h
    simp [Parser.resolveFieldType, h]
  · intro sIds eIds id h
    simp [Parser.resolveFieldType, Parser.get_list_type, h, Bind.bind, Except.bind]
  · intro sIds eIds res res' pre fname d id rest hpre hd
    rw [parse_struct_go_append sIds eIds pre res res' hpre]
    simp [Parser.parse_struct_go, hd, Bind.bind, Except.bind]
  · intro schema e h
    simp [runProgram, h, Bind.bind, Except.bind]

/-- Witness for C4: a schema whose only struct has a field referencing the
unregistered TypeId 99 fails with that lookup error and produces no output. -/
theorem C4_unresolved_ref_fails_witness :
    ([(1, "S")] : List (Nat × String)).lookup 99 = none ∧
    Parser.resolveFieldType [(1, "S")] [] (.structK 99) = .error (.lookupError 99) ∧
    Parser.parse [("S", .structMod 1 [("f", .structK 99)])] = .error (.lookupError 99) ∧
    runProgram (.ok [("S", .structMod 1 [("f", .structK 99)])]) = .error (.lookupError 99) := by
  have hl : ([(1, "S")] : List (Nat × String)).lookup 99 = none := rfl
  have hp : Parser.parse [("S", .structMod 1 [("f", .structK 99)])] =
      .error (.lookupError 99) := rfl
  exact ⟨hl, C4_unresolved_ref_fails.1 [(1, "S")] [] 99 hl, hp,
    C4_unresolved_ref_fails.2.2.2.2 _ _ hp⟩

/-- Claim C9: with all field and enumerant names non-empty, resolution never
reaches the capitalization helper's unconditional first-character indexing
(no index error is reachable, and generation is a total function of the
resolved mapping); an empty enumerant or field name makes resolution fail
with an index error — not a load or lookup error. -/
theorem C9_nonempty_names_total :
    (∀ (schema : Schema) (e : PError),
      namesNonEmpty schema = true → Parser.parse schema = .error e →
        e ≠ .indexError) ∧
    (∀ (n : String) (id : Nat) (pre post : List String),
      Parser.parse [(n, .enumMod id (pre ++ "" :: post))] = .error .indexError) ∧
    (∀ (n : String) (id : Nat) (w : String) (rest : List (String × DeclKind)),
      Parser.parse [(n, .structMod id (("", .primK w) :: rest))] = .error .indexError) := by
  refine ⟨?_, ?_, ?_⟩
  · intro schema e hne h
    cases hall : Parser.parseAll ⟨[], [], []⟩ schema with
    | error e' =>
      have he : e' = e := by
        have := h
        unfold Parser.parse at this
        rw [hall] at this
        cases this; rfl
      subst he
      exact parseAll_error_ne_index schema ⟨[], [], []⟩ e' hne hall
    | ok st =>
      exfalso
      have := h
      unfold Parser.parse at this
      rw [hall] at this
      cases this
  · intro n id pre post
    have hmm : (pre ++ "" :: post).mapM cap = .error .indexError :=
      mapM_cap_empty_mem _ (List.mem_append.mpr (Or.inr (List.mem_cons_self _ _)))
    have hres : Parser.resolveEnumerants (pre ++ "" :: post) = .error .indexError := by
      rw [resolveEnumerants_eq, hmm]
    unfold Parser.parse Parser.parseAll
    simp only [Parser.parseStep]
    rw [hres]
    rfl
  · intro n id w rest
    have hps : ∀ (sIds eIds : List (Nat × String)),
        Parser.parse_struct sIds eIds (("", .primK w) :: rest) = .error .indexError :=
      fun _ _ => rfl
    unfold Parser.parse Parser.parseAll
    simp only [Parser.parseStep]
    rw [hps]
    rfl

/-- Witness for C9: a schema with non-empty names that fails does so with a
lookup error (not an index error); an empty enumerant name and an empty
field name each produce the index error. -/
theorem C9_nonempty_names_total_witness :
    namesNonEmpty [("S", .structMod 1 [("f", .structK 99)])] = true ∧
    Parser.parse [("S", .structMod 1 [("f", .structK 99)])] = .error (.lookupError 99) ∧
    PError.lookupError 99 ≠ .indexError ∧
    Parser.parse [("E", .enumMod 1 (["x0"] ++ "" :: []))] = .error .indexError ∧
    Parser.parse [("S2", .structMod 2 (("", .primK "int32") :: []))] = .error .indexError := by
  have h1 : namesNonEmpty [("S", .structMod 1 [("f", .structK 99)])] = true := by decide
  have h2 : Parser.parse [("S", .structMod 1 [("f", .structK 99)])] =
      .error (.lookupError 99) := rfl
  exact ⟨h1, h2, C9_nonempty_names_total.1 _ _ h1 h2,
    C9_nonempty_names_total.2.1 "E" 1 ["x0"] [],
    C9_nonempty_names_total.2.2 "S2" 2 "int32" []⟩

end CapnpWrapperGen
